import Mathlib

/-!
Shallow embedding of the moabb paradigm-processing core:
`moabb/paradigms/base.py` (`BaseParadigm.process_raw`, `BaseParadigm.get_data`)
and `moabb/paradigms/p300.py` (`BaseP300.__init__`, `BaseP300.is_valid`,
`BaseP300.process_raw`, `P300.used_events`).

Times, frequencies and amplitudes are rationals.  The numerical library
(mne/numpy digital filtering, epoch extraction, amplitude/annotation
rejection, resampling) is the declared trust boundary of the specification:
its per-band outcome (the retained windows of one recording for one filter
band) is supplied by the `bandEpochs` field of a `Raw` value, and the
events it decodes from a recording are supplied by the `stimEvents` /
`annotEventsAll` / `annotEventsById` fields.  Everything the repository
itself does (control flow, window-bound arithmetic, event picking and
merging, accumulation, shape assembly, error propagation) is modelled
explicitly.
-/

namespace Moabb

/- Batteries marks rational arithmetic `@[irreducible]`; concrete
evaluation of the embedded pipeline (via `decide` / `rfl`) needs it
unfolded. -/
set_option allowUnsafeReducibility true
attribute [local semireducible] Rat.mul Rat.add Rat.sub Rat.div Rat.inv

deriving instance DecidableEq for Except

/-- Python exceptions raised by the modelled code paths. -/
inductive PyError
  | valueError (msg : String)
  | runtimeError
  | indexError
  | keyError (k : String)
  | typeError
  | nameError
  | assertionError (msg : String)
deriving DecidableEq

/-- One mne annotation: onset (s), duration (s), textual description. -/
structure Annot where
  onset : ℚ
  duration : ℚ
  text : String
deriving DecidableEq

/-- One mne event row `(sample, previous value, event code)`. -/
structure Event where
  sample : Nat
  prev : Nat
  code : Nat
deriving DecidableEq

/-- A dataset `event_id` value: either a single numeric code or a Python
list of codes (grouped targets / non-targets). -/
inductive EvCode
  | single (n : Nat)
  | group (ns : List Nat)
deriving DecidableEq

/-- One extracted window: channels × samples. -/
abbrev Win := List (List ℚ)

/-- windows × channels × samples. -/
abbrev Arr3 := List (List (List ℚ))

/-- windows × channels × samples × bands. -/
abbrev Arr4 := List (List (List (List ℚ)))

/-- One raw recording together with the outcomes of the trusted library
calls made on it.  The recording data itself (`signal`, `ch_names`,
`annots`) is what claim C8's frame condition is about. -/
structure Raw where
  /-- channel name ↦ continuous samples (`raw._data`). -/
  signal : List (String × List ℚ)
  /-- `raw.info["ch_names"]`. -/
  ch_names : List String
  /-- `raw.annotations`. -/
  annots : List Annot
  /-- `mne.utils._get_stim_channel(None, raw.info, raise_error=False)`. -/
  stim_channels : List String
  /-- `mne.find_events(raw, shortest_event=0)` (trusted decode). -/
  stimEvents : List Event
  /-- `mne.events_from_annotations(raw)` without an `event_id` argument
  (p300.py line 147); `none` models the call raising `ValueError`. -/
  annotEventsAll : Option (List Event)
  /-- `mne.events_from_annotations(raw, event_id=event_id)`
  (base.py lines 115-117); `none` models the call raising `ValueError`. -/
  annotEventsById : Option (List Event)
  /-- `raw.info["sfreq"]`. -/
  sfreq : ℚ
  /-- sample indices returned by `mne.preprocessing.find_eog_events`
  (trusted artifact detector). -/
  eogEvents : List Nat
  /-- `mne.pick_types(raw.info, eeg=True, stim=False)` (trusted). -/
  eegPicks : List String
  /-- Trusted per-band epoching outcome: for filter-band index `i`, the
  retained `(event code, channels × samples)` windows after
  `mne.Epochs(...)` construction, annotation-based dropping and
  `drop_bad` amplitude rejection.  Band-filtered data differ per band, so
  retention may depend on the band index. -/
  bandEpochs : Nat → List (Nat × Win)

/-- The dataset collaborator contract consumed by the core. -/
structure Dataset where
  paradigm : String
  event_id : List (String × EvCode)
  interval : ℚ × ℚ
  unit_factor : ℚ
  code : String
deriving Inhabited

/-- The `reject_from_eog` constructor argument: `False`, `True`, a channel
name, or a kwargs dict for `find_eog_events` (p300.py lines 121-130). -/
inductive EogOpt
  | off
  | useDefault
  | chName (s : String)
  | kwargs
deriving DecidableEq

/-- Python truthiness of `self.reject_from_eog`. -/
def EogOpt.truthy : EogOpt → Bool
  | .off => false
  | _ => true

/-- The immutable-after-construction recipe configuration stored by
`BaseP300.__init__`. -/
structure Config where
  filters : List (ℚ × ℚ)
  events : Option (List String)
  tmin : ℚ
  tmax : Option ℚ
  reject_tmin : Option ℚ
  reject_tmax : Option ℚ
  baseline : Option (ℚ × ℚ)
  channels : Option (List String)
  resample : Option ℚ
  reject_uv : Option ℚ
  reject_from_eog : EogOpt
deriving DecidableEq

/-- Condition of the first `__init__` check (p300.py lines 83-85):
`tmax is not None and tmin >= tmax`. -/
def tmaxBad (tmin : ℚ) (tmax : Option ℚ) : Bool :=
  match tmax with | some t => decide (tmin ≥ t) | none => false

/-- Condition of the second `__init__` check (p300.py lines 89-91):
`reject_tmin is not None and reject_tmin <= tmin`. -/
def rejectTminBad (tmin : ℚ) (rtmin : Option ℚ) : Bool :=
  match rtmin with | some r => decide (r ≤ tmin) | none => false

/-- Condition of the third `__init__` check (p300.py lines 92-94):
`reject_tmax is not None and reject_tmax <= tmin`. -/
def rejectTmaxBad (tmin : ℚ) (rtmax : Option ℚ) : Bool :=
  match rtmax with | some r => decide (r ≤ tmin) | none => false

/-- Condition of the fourth `__init__` check (p300.py lines 95-97):
both bounds given and `reject_tmin >= reject_tmax`. -/
def rejectPairBad (rtmin rtmax : Option ℚ) : Bool :=
  match rtmin, rtmax with | some a, some b => decide (a ≥ b) | _, _ => false

/-- `BaseP300.__init__` (p300.py lines 60-99): the four construction-time
validations, in source order, then the stored configuration. -/
def baseP300Init (filters : List (ℚ × ℚ)) (events : Option (List String)) (tmin : ℚ)
    (tmax : Option ℚ) (reject_tmin : Option ℚ) (reject_tmax : Option ℚ)
    (baseline : Option (ℚ × ℚ)) (channels : Option (List String)) (resample : Option ℚ)
    (reject_uv : Option ℚ) (reject_from_eog : EogOpt) : Except PyError Config :=
  if tmaxBad tmin tmax then
    .error (.valueError "tmax must be greater than tmin")
  else if rejectTminBad tmin reject_tmin then
    .error (.valueError "reject_tmin must be greater or equal to tmin")
  else if rejectTmaxBad tmin reject_tmax then
    .error (.valueError "reject_tmax must be greater than tmin")
  else if rejectPairBad reject_tmin reject_tmax then
    .error (.valueError "reject_tmax must be greater than reject_tmin")
  else
    .ok ⟨filters, events, tmin, tmax, reject_tmin, reject_tmax, baseline, channels,
      resample, reject_uv, reject_from_eog⟩

/-- Python truthiness of `self.events` (`None` and the empty list are
falsy). -/
def eventsTruthy : Option (List String) → Bool
  | none => false
  | some l => !l.isEmpty

/-- `BaseP300.is_valid` (p300.py lines 101-112): paradigm tag must be
"p300"; if an event whitelist is configured (truthy), it must be a subset
of the dataset's event vocabulary. -/
def is_valid (p : Config) (d : Dataset) : Bool :=
  let ret := true
  let ret := if d.paradigm = "p300" then ret else false
  if eventsTruthy p.events then
    match p.events with
    | some evs =>
        if evs.all (fun e => (d.event_id.map Prod.fst).contains e) then ret else false
    | none => ret
  else ret

/-- Fallible list map mirroring a Python loop or comprehension in which an
exception aborts the whole statement. -/
def emapM (f : α → Except PyError β) : List α → Except PyError (List β)
  | [] => .ok []
  | a :: as =>
    match f a with
    | .error e => .error e
    | .ok b =>
      match emapM f as with
      | .error e => .error e
      | .ok bs => .ok (b :: bs)

/-- `dataset.event_id[ev]`: KeyError when the label is absent. -/
def lookupEv (d : Dataset) (ev : String) : Except PyError EvCode :=
  match d.event_id.lookup ev with
  | some c => .ok c
  | none => .error (.keyError ev)

/-- `P300.used_events` (p300.py lines 326-327):
`{ev: dataset.event_id[ev] for ev in self.events}`.  Iterating a `None`
whitelist is a TypeError in Python. -/
def used_events (p : Config) (d : Dataset) : Except PyError (List (String × EvCode)) :=
  match p.events with
  | none => .error .typeError
  | some evs => emapM (fun ev => (lookupEv d ev).map (fun c => (ev, c))) evs

/-- The synthesized blink annotations (p300.py lines 133-140): each
detected EOG event becomes a "bad blink" annotation starting 0.25 s before
it and lasting 0.7 s. -/
def blinkAnnots (raw : Raw) : List Annot :=
  raw.eogEvents.map (fun s =>
    { onset := (s : ℚ) / raw.sfreq - 1/4, duration := 7/10, text := "bad blink" })

/-- The EOG-rejection preamble of `BaseP300.process_raw` (p300.py lines
121-141).  A dict is taken as kwargs unchecked; a channel name must exist
in the recording; `True` uses the default EOG channel.  When enabled the
blink annotations are merged into the input recording's annotation set in
place (`raw.set_annotations(raw.annotations + blink_annot)`). -/
def eogStage (p : Config) (raw : Raw) : Except PyError Raw :=
  match p.reject_from_eog with
  | .off => .ok raw
  | .kwargs => .ok { raw with annots := raw.annots ++ blinkAnnots raw }
  | .chName s =>
      if raw.ch_names.contains s then
        .ok { raw with annots := raw.annots ++ blinkAnnots raw }
      else .error (.valueError (s ++ " not in channels "))
  | .useDefault => .ok { raw with annots := raw.annots ++ blinkAnnots raw }

/-- Event extraction in `BaseP300.process_raw` (p300.py lines 143-147):
prefer the stim channel; otherwise decode annotations, with a decoding
`ValueError` propagating (the override has no try/except here). -/
def p300FindEvents (raw : Raw) : Except PyError (List Event) :=
  if raw.stim_channels.length > 0 then .ok raw.stimEvents
  else
    match raw.annotEventsAll with
    | some evs => .ok evs
    | none => .error (.valueError "annotations decode failed")

/-- Event extraction in `BaseParadigm.process_raw` (base.py lines
109-120): same preference, but a decoding `ValueError` is caught and the
recording is skipped (`none` = the caught-ValueError sentinel path). -/
def baseFindEvents (raw : Raw) : Option (List Event) :=
  if raw.stim_channels.length > 0 then some raw.stimEvents
  else raw.annotEventsById

/-- `mne.pick_channels(raw.info["ch_names"], include=channels,
ordered=True)`: with `ordered=True` every requested channel must exist,
and the requested order is kept. -/
def pickChannels (ch_names includeChs : List String) : Except PyError (List String) :=
  if includeChs.all ch_names.contains then .ok includeChs
  else .error (.valueError "missing channels")

/-- Channel picking (p300.py lines 149-157 / base.py lines 122-128): all
EEG channels when no whitelist is configured, else the ordered whitelist.
(The first `pick_types` call on p300.py line 151 is dead: it is
immediately overwritten.) -/
def picksStage (p : Config) (raw : Raw) : Except PyError (List String) :=
  match p.channels with
  | none => .ok raw.eegPicks
  | some chans => pickChannels raw.ch_names chans

/-- `mne.merge_events(events, ids, new_id)`: rewrite every listed code to
the new code. -/
def mergeEvents (evs : List Event) (ids : List Nat) (newId : Nat) : List Event :=
  evs.map (fun e => if ids.contains e.code then { e with code := newId } else e)

/-- `mne.pick_events(events, include=...)`: keep events whose code is one
of the included scalar codes; raise RuntimeError when nothing remains.  A
Python-list entry inside `include` (a non-merged grouped vocabulary) has
no defined matching behaviour in the library and is modelled as matching
nothing. -/
def pickEvents (evs : List Event) (includeCodes : List EvCode) : Except PyError (List Event) :=
  let keep := evs.filter (fun e =>
    includeCodes.any (fun c =>
      match c with
      | .single n => decide (e.code = n)
      | .group _ => false))
  if keep.isEmpty then .error .runtimeError else .ok keep

/-- The picked event stream together with the (possibly merged) event
vocabulary in force afterwards. -/
structure EventPickOut where
  events : List Event
  eid : List (String × EvCode)
deriving DecidableEq

/-- Event picking in `BaseP300.process_raw` (p300.py lines 162-172).
`event_id["Target"]` is evaluated first (KeyError propagates — the
`try` only catches RuntimeError); when both "Target" and "NonTarget" map
to Python lists the groups are merged to the synthetic codes 1 / 0; then
`pick_events` filters, and its RuntimeError is turned into the
skip-sentinel (`ok none`). -/
def p300EventStage (eid : List (String × EvCode)) (evs : List Event) :
    Except PyError (Option EventPickOut) :=
  match eid.lookup "Target" with
  | none => .error (.keyError "Target")
  | some (.single _) =>
      match pickEvents evs (eid.map Prod.snd) with
      | .error .runtimeError => .ok none
      | .error e => .error e
      | .ok kept => .ok (some ⟨kept, eid⟩)
  | some (.group tg) =>
      match eid.lookup "NonTarget" with
      | none => .error (.keyError "NonTarget")
      | some (.group ng) =>
          let evs1 := mergeEvents evs tg 1
          let evs2 := mergeEvents evs1 ng 0
          let eidN : List (String × EvCode) :=
            [("Target", .single 1), ("NonTarget", .single 0)]
          match pickEvents evs2 (eidN.map Prod.snd) with
          | .error .runtimeError => .ok none
          | .error e => .error e
          | .ok kept => .ok (some ⟨kept, eidN⟩)
      | some (.single _) =>
          match pickEvents evs (eid.map Prod.snd) with
          | .error .runtimeError => .ok none
          | .error e => .error e
          | .ok kept => .ok (some ⟨kept, eid⟩)

/-- Absolute window bounds (p300.py lines 174-179 / base.py lines
137-142): `tmin`/`tmax` shifted by the dataset task-interval origin, with
`tmax = None` meaning the interval's upper bound. -/
def intervalBounds (p : Config) (d : Dataset) : ℚ × ℚ :=
  let tmin := p.tmin + d.interval.1
  let tmax :=
    match p.tmax with
    | none => d.interval.2
    | some t => t + d.interval.1
  (tmin, tmax)

/-- The per-recording rejection-window check (p300.py lines 180-182):
raises when `reject_tmax >= dataset.interval[1]`. -/
def rejectTmaxCheck (p : Config) (d : Dataset) : Except PyError Unit :=
  match p.reject_tmax with
  | some r =>
      if r ≥ d.interval.2 then
        .error (.valueError "reject_tmax needs to be shorter than tmax")
      else .ok ()
  | none => .ok ()

/-- The baseline-window computation shared by both `process_raw` variants
(p300.py lines 192-202 / base.py lines 154-164): the shifted baseline, and
`bmin = min(baseline0, tmin)`, `bmax = max(baseline1, tmax)` (written as
conditionals in the source). -/
def widenBounds (baseline : Option (ℚ × ℚ)) (interval0 tmin tmax : ℚ) :
    Option (ℚ × ℚ) × ℚ × ℚ :=
  match baseline with
  | none => (none, tmin, tmax)
  | some b =>
      let bl := (b.1 + interval0, b.2 + interval0)
      let bmin := if bl.1 < tmin then bl.1 else tmin
      let bmax := if bl.2 > tmax then bl.2 else tmax
      (some bl, bmin, bmax)

/-- The extraction window handed to `mne.Epochs` by `BaseP300.process_raw`
(p300.py lines 205-206): the plain `tmin`/`tmax`, not the widened
bounds. -/
def p300EpochBounds (p : Config) (d : Dataset) : ℚ × ℚ :=
  intervalBounds p d

/-- The extraction window handed to `mne.Epochs` by
`BaseParadigm.process_raw` (base.py lines 169-170): the widened
`bmin`/`bmax`. -/
def baseEpochBounds (p : Config) (d : Dataset) : ℚ × ℚ :=
  let tb := intervalBounds p d
  let wb := widenBounds p.baseline d.interval.1 tb.1 tb.2
  (wb.2.1, wb.2.2)

/-- An `mne.Epochs` object: retained `(event code, window)` pairs plus the
time span its windows cover. -/
structure EpochsObj where
  wins : List (Nat × Win)
  span : ℚ × ℚ
deriving DecidableEq

/-- `epochs.crop(tmin, tmax)`: the requested bounds clamped into the
current span; retained windows are unchanged in number and identity. -/
def cropEpochs (e : EpochsObj) (a b : ℚ) : EpochsObj :=
  { e with span := (max e.span.1 a, min e.span.2 b) }

/-- The epoching kwargs assembled by `BaseP300.process_raw` (p300.py lines
203-216) — identical on every loop iteration; the source keeps the last
copy and returns it in the auxiliary tuple. -/
structure EpochKwargs where
  eid : List (String × EvCode)
  tmin : ℚ
  tmax : ℚ
  reject_tmin : Option ℚ
  reject_tmax : Option ℚ
  baseline : Option (ℚ × ℚ)
  picks : List String
  rejectByAnnot : Bool
deriving DecidableEq

/-- Builds the p300 epoching kwargs for a given recipe/dataset. -/
def mkKwargs (p : Config) (d : Dataset) (picks : List String) (epk : EventPickOut) :
    EpochKwargs :=
  let tb := intervalBounds p d
  let wb := widenBounds p.baseline d.interval.1 tb.1 tb.2
  ⟨epk.eid, tb.1, tb.2, p.reject_tmin, p.reject_tmax, wb.1, picks,
    p.reject_from_eog.truthy⟩

/-- One band iteration of `BaseP300.process_raw` (p300.py lines 185-227):
the trusted filter + `mne.Epochs` + `drop_bad` outcome for band `i`
anchored at the *unwidened* `tmin`/`tmax` (lines 205-206), then the
conditional crop (lines 224-225; a no-op here since the span already is
`[tmin, tmax]`), then resampling (window/channel structure preserved). -/
def bandEpoch (p : Config) (d : Dataset) (raw : Raw) (i : Nat) : EpochsObj :=
  let tb := intervalBounds p d
  let wb := widenBounds p.baseline d.interval.1 tb.1 tb.2
  let e0 : EpochsObj := ⟨raw.bandEpochs i, p300EpochBounds p d⟩
  if wb.2.1 < tb.1 ∨ wb.2.2 > tb.2 then cropEpochs e0 tb.1 tb.2 else e0

/-- One band iteration of `BaseParadigm.process_raw` (base.py lines
146-182): same, but `mne.Epochs` is anchored at the widened
`bmin`/`bmax` (lines 169-170) and the conditional crop (lines 179-180)
brings the span back to `[tmin, tmax]`. -/
def baseBandEpoch (p : Config) (d : Dataset) (raw : Raw) (i : Nat) : EpochsObj :=
  let tb := intervalBounds p d
  let wb := widenBounds p.baseline d.interval.1 tb.1 tb.2
  let e0 : EpochsObj := ⟨raw.bandEpochs i, baseEpochBounds p d⟩
  if wb.2.1 < tb.1 ∨ wb.2.2 > tb.2 then cropEpochs e0 tb.1 tb.2 else e0

/-- `epochs.get_data()`: windows × channels × samples. -/
def epochsGetData (e : EpochsObj) : Arr3 :=
  e.wins.map Prod.snd

/-- `dataset.unit_factor * epochs.get_data()`. -/
def scaleArr3 (uf : ℚ) (a : Arr3) : Arr3 :=
  a.map (fun w => w.map (fun ch => ch.map (fun x => uf * x)))

/-- numpy shape of a 2-level nesting, when homogeneous. -/
def sampShape (w : List (List ℚ)) : Option Nat :=
  match w with
  | [] => some 0
  | r :: rs => if rs.all (fun x => decide (x.length = r.length)) then some r.length else none

/-- numpy shape of a 3-level nesting, when homogeneous (an empty window
axis reports a degenerate `(0, 0, 0)` shape, indistinguishable in this
model). -/
def arr3Shape (a : Arr3) : Option (Nat × Nat × Nat) :=
  match a with
  | [] => some (0, 0, 0)
  | w :: ws =>
    match sampShape w with
    | none => none
    | some t =>
        if ws.all (fun v => decide (v.length = w.length) && decide (sampShape v = some t)) then
          some (ws.length + 1, w.length, t)
        else none

/-- numpy shape of a 4-level nesting, when homogeneous. -/
def arr4Shape (a : Arr4) : Option (Nat × Nat × Nat × Nat) :=
  match a with
  | [] => some (0, 0, 0, 0)
  | w :: ws =>
    match arr3Shape w with
    | none => none
    | some s =>
        if ws.all (fun v => decide (arr3Shape v = some s)) then
          some (ws.length + 1, s.1, s.2.1, s.2.2)
        else none

/-- `np.array(X).transpose((1, 2, 3, 0))` on the per-band list (p300.py
line 243 / base.py line 198): requires a homogeneous (bands, windows,
channels, samples) stack, and moves the band axis to the rear. -/
def stackTranspose (xs : List Arr3) : Except PyError Arr4 :=
  match xs with
  | [] => .error (.valueError "axes dont match array")
  | x :: rest =>
    match arr3Shape x with
    | none => .error (.valueError "inhomogeneous array")
    | some s =>
        if rest.all (fun y => decide (arr3Shape y = some s)) then
          .ok ((List.range s.1).map (fun w =>
            (List.range s.2.1).map (fun ci =>
              (List.range s.2.2).map (fun ti =>
                (x :: rest).map (fun y => ((y.getD w []).getD ci []).getD ti 0)))))
        else .error (.valueError "inhomogeneous array")

/-- The feature value of one `process_raw` call: a 3-D array, a 4-D
array, a Python list of per-band `mne.Epochs` (p300, `return_epochs`), or
a bare `mne.Epochs` (base, `return_epochs`, single band). -/
inductive XData
  | arr3 (a : Arr3)
  | arr4 (a : Arr4)
  | elist (es : List EpochsObj)
  | eobj (e : EpochsObj)
deriving DecidableEq

/-- A marker standing for one band-filtered copy `raw_f = raw.copy()
.filter(fmin, fmax, method="iir", picks=picks)`. -/
structure FilteredMark where
  band : ℚ × ℚ
  picks : List String
deriving DecidableEq

/-- The auxiliary fourth component returned by `process_raw`:
base.py line 201 returns the run list; p300.py line 246 returns
`(runs, events, epoching_kwargs)`. -/
inductive AuxInfo
  | baseRuns (runs : List FilteredMark)
  | p300Aux (runs : List (Option FilteredMark)) (events : List Event) (kwargs : EpochKwargs)
deriving DecidableEq

/-- The non-sentinel result of one `process_raw` call: features, labels,
the row count of the empty-columned metadata frame, and the auxiliary
component. -/
structure RunResult where
  X : XData
  labels : List String
  metaRows : Nat
  aux : AuxInfo
deriving DecidableEq

/-- `inv_events = {k: v for v, k in event_id.items()}` (p300.py line 235 /
base.py line 191): the code → label inverse map.  A grouped (Python list)
value is unhashable as a dict key: TypeError. -/
def invEvents (eid : List (String × EvCode)) : Except PyError (List (Nat × String)) :=
  emapM (fun kv =>
    match kv.2 with
    | .single n => .ok (n, kv.1)
    | .group _ => .error .typeError) eid

/-- `labels = np.array([inv_events[e] for e in epochs.events[:, -1]])`
for the last band's epochs; an unmapped code is a KeyError. -/
def labelsOf (inv : List (Nat × String)) (e : EpochsObj) : Except PyError (List String) :=
  emapM (fun wc =>
    match inv.lookup wc.1 with
    | some l => .ok l
    | none => .error (.keyError (toString wc.1))) e.wins

/-- `runs.append(raw_f if return_runs else None)` over the band loop
(p300.py line 229). -/
def runsList (p : Config) (rr : Bool) (picks : List String) : List (Option FilteredMark) :=
  p.filters.map (fun b => if rr then some ⟨b, picks⟩ else none)

/-- Feature assembly of `BaseP300.process_raw` (p300.py lines 230-243):
with `return_epochs` the per-band list is kept; otherwise one band yields
the scaled 3-D array and several bands the stacked/transposed 4-D
array. -/
def p300AssembleX (p : Config) (d : Dataset) (re : Bool) (bandEps : List EpochsObj) :
    Except PyError XData :=
  if re then .ok (.elist bandEps)
  else if p.filters.length = 1 then
    match bandEps with
    | e :: _ => .ok (.arr3 (scaleArr3 d.unit_factor (epochsGetData e)))
    | [] => .error .nameError
  else
    (stackTranspose (bandEps.map (fun e => scaleArr3 d.unit_factor (epochsGetData e)))).map .arr4

/-- Feature assembly of `BaseParadigm.process_raw` (base.py lines
184-198): the branch on the band count is unconditional, so
`return_epochs` with one band hands back the bare `mne.Epochs`, and with
several bands `np.array(...).transpose` is applied to a 1-D object array
and raises. -/
def baseAssembleX (p : Config) (d : Dataset) (re : Bool) (bandEps : List EpochsObj) :
    Except PyError XData :=
  if p.filters.length = 1 then
    match bandEps with
    | e :: _ => .ok (if re then .eobj e else .arr3 (scaleArr3 d.unit_factor (epochsGetData e)))
    | [] => .error .nameError
  else if re then .error (.valueError "axes dont match array")
  else
    (stackTranspose (bandEps.map (fun e => scaleArr3 d.unit_factor (epochsGetData e)))).map .arr4

/-- The band loop and result assembly of `BaseP300.process_raw` (p300.py
lines 180-246), entered once events were picked.  An empty filter bank
leaves the Python variable `epochs` unbound at the labels line:
NameError. -/
def p300Bands (p : Config) (d : Dataset) (raw : Raw) (re rr : Bool)
    (picks : List String) (epk : EventPickOut) : Except PyError (Raw × Option RunResult) :=
  match rejectTmaxCheck p d with
  | .error e => .error e
  | .ok _ =>
    match invEvents epk.eid with
    | .error e => .error e
    | .ok inv =>
      match ((List.range p.filters.length).map (fun i => bandEpoch p d raw i)).getLast? with
      | none => .error .nameError
      | some lastE =>
        match labelsOf inv lastE with
        | .error e => .error e
        | .ok labels =>
          match p300AssembleX p d re
              ((List.range p.filters.length).map (fun i => bandEpoch p d raw i)) with
          | .error e => .error e
          | .ok X =>
              .ok (raw, some ⟨X, labels, labels.length,
                .p300Aux (runsList p rr picks) epk.events (mkKwargs p d picks epk)⟩)

/-- `BaseP300.process_raw` (p300.py lines 118-246).  The returned `Raw` is
the recording as the caller sees it after the call (the EOG preamble
mutates it in place); `none` in the second component is the skip
sentinel (`return` without a value). -/
def p300ProcessRaw (p : Config) (d : Dataset) (raw0 : Raw) (re rr : Bool) :
    Except PyError (Raw × Option RunResult) :=
  match eogStage p raw0 with
  | .error e => .error e
  | .ok raw =>
    match p300FindEvents raw with
    | .error e => .error e
    | .ok evs =>
      match picksStage p raw with
      | .error e => .error e
      | .ok picks =>
        match used_events p d with
        | .error e => .error e
        | .ok eid =>
          match p300EventStage eid evs with
          | .error e => .error e
          | .ok none => .ok (raw, none)
          | .ok (some epk) => p300Bands p d raw re rr picks epk

/-- The band loop and result assembly of `BaseParadigm.process_raw`
(base.py lines 144-201). -/
def baseBands (p : Config) (d : Dataset) (raw : Raw) (re rr : Bool)
    (picks : List String) (eid : List (String × EvCode)) (_kept : List Event) :
    Except PyError (Option RunResult) :=
  match invEvents eid with
  | .error e => .error e
  | .ok inv =>
    match ((List.range p.filters.length).map (fun i => baseBandEpoch p d raw i)).getLast? with
    | none => .error .nameError
    | some lastE =>
      match labelsOf inv lastE with
      | .error e => .error e
      | .ok labels =>
        match baseAssembleX p d re
            ((List.range p.filters.length).map (fun i => baseBandEpoch p d raw i)) with
        | .error e => .error e
        | .ok X =>
            .ok (some ⟨X, labels, labels.length,
              .baseRuns (if rr then p.filters.map (fun b => ⟨b, picks⟩) else [])⟩)

/-- `BaseParadigm.process_raw` (base.py lines 70-201), with the abstract
`used_events` instantiated by the P300 resolver.  `none` is the skip
sentinel; the input recording is never mutated on this path. -/
def baseProcessRaw (p : Config) (d : Dataset) (raw : Raw) (re rr : Bool) :
    Except PyError (Option RunResult) :=
  match used_events p d with
  | .error e => .error e
  | .ok eid =>
    match baseFindEvents raw with
    | none => .ok none
    | some evs =>
      match picksStage p raw with
      | .error e => .error e
      | .ok picks =>
        match pickEvents evs (eid.map Prod.snd) with
        | .error .runtimeError => .ok none
        | .error e => .error e
        | .ok kept => baseBands p d raw re rr picks eid kept

/-! ## The aggregator: `BaseParadigm.get_data` (base.py lines 203-332)

The loop dispatches `self.process_raw` dynamically; for the P300 recipes
modelled here that is `BaseP300.process_raw`. -/

/-- One row of the combined metadata table after the aggregator stamped
the identifiers (base.py lines 285-287). -/
structure MetaRow where
  subject : String
  session : String
  run : String
deriving DecidableEq

/-- The `subject ↦ session ↦ run ↦ raw` mapping returned by
`dataset.get_data(subjects)`; Python dict insertion order is meaningful
and dict keys are unique. -/
abbrev DData := List (String × List (String × List (String × Raw)))

/-- The pickled `(X, labels, metadata)` triple of the advisory cache. -/
structure CacheTriple where
  X : XData
  labels : List String
  meta : List MetaRow

/-- Which collaborator operations a `get_data` call invoked. -/
structure Trace where
  calledIsValid : Bool
  calledPrepare : Bool
  fetchedData : Bool
  procCalls : Nat
deriving DecidableEq

/-- The combined `get_data` output tuple. -/
structure GOut where
  X : XData
  labels : List String
  meta : List MetaRow
  runs : Option (List AuxInfo)
deriving DecidableEq

/-- The Python `X` accumulator: the initial/growing list, or the ndarray
it is replaced by in array mode. -/
inductive XAcc
  | pyList (xs : List XData)
  | nd (x : XData)

/-- The aggregation-loop state. -/
structure Acc where
  X : XAcc
  labels : List String
  meta : List (List MetaRow)
  runsAux : List AuxInfo
  procCalls : Nat

/-- The initial loop state (base.py lines 268-271). -/
def acc0 : Acc := ⟨.pyList [], [], [], [], 0⟩

/-- `len(x[0])` (base.py line 290): index the feature value at 0, then
take its length.  On an empty ndarray the indexing raises IndexError; on
a window it yields the channel count; on a per-band list it yields the
retained-epoch count of the first band; on a bare `mne.Epochs`,
`epochs[0]` is a one-epoch object (IndexError when empty). -/
def lenX0 (x : XData) : Except PyError Nat :=
  match x with
  | .arr3 a => match a with | [] => .error .indexError | w :: _ => .ok w.length
  | .arr4 a => match a with | [] => .error .indexError | w :: _ => .ok w.length
  | .elist es => match es with | [] => .error .indexError | e :: _ => .ok e.wins.length
  | .eobj e => match e.wins with | [] => .error .indexError | _ :: _ => .ok 1

/-- Length of the leading (window) axis of a feature value (`len` of an
ndarray, a Python list, or an `mne.Epochs`). -/
def xWindows : XData → Nat
  | .arr3 a => a.length
  | .arr4 a => a.length
  | .elist es => es.length
  | .eobj e => e.wins.length

/-- `len(X)` on the accumulator (base.py line 292). -/
def accLen (xa : XAcc) : Nat :=
  match xa with
  | .pyList xs => xs.length
  | .nd x => xWindows x

/-- `np.append(X, x, axis=0)` (base.py line 296): concatenation along the
window axis, requiring compatible trailing shapes. -/
def npAppend (a b : XData) : Except PyError XData :=
  match a, b with
  | .arr3 x, .arr3 y =>
    match arr3Shape x, arr3Shape y with
    | some s1, some s2 =>
        if s1.2 = s2.2 then .ok (.arr3 (x ++ y))
        else .error (.valueError "append shape mismatch")
    | _, _ => .error (.valueError "append shape mismatch")
  | .arr4 x, .arr4 y =>
    match arr4Shape x, arr4Shape y with
    | some s1, some s2 =>
        if s1.2 = s2.2 then .ok (.arr4 (x ++ y))
        else .error (.valueError "append shape mismatch")
    | _, _ => .error (.valueError "append shape mismatch")
  | _, _ => .error (.valueError "append type mismatch")

/-- Accumulation bookkeeping shared by the growth branches (base.py lines
291-302): metadata was already appended; store the new feature state and
label vector, and append the auxiliary info when `return_runs`. -/
def accumOk (st : Acc) (x : XAcc) (labels : List String) (res : RunResult) (rr : Bool) : Acc :=
  { st with
    X := x
    labels := labels
    runsAux := if rr then st.runsAux ++ [res.aux] else st.runsAux }

/-- One iteration of the run loop (base.py lines 274-304): call
`process_raw`; skip on the sentinel; stamp the metadata; the `len(x[0])`
guard; grow the accumulators or print the zero-window caution.  The
second component carries a raised exception; the first is the state at
that moment. -/
def runStep (p : Config) (d : Dataset) (re rr : Bool) (subj sess : String)
    (st0 : Acc) (runPair : String × Raw) : Acc × Option PyError :=
  let st := { st0 with procCalls := st0.procCalls + 1 }
  match p300ProcessRaw p d runPair.2 re rr with
  | .error e => (st, some e)
  | .ok (_, none) => (st, none)
  | .ok (_, some res) =>
    let met := List.replicate res.metaRows (⟨subj, sess, runPair.1⟩ : MetaRow)
    match lenX0 res.X with
    | .error e => (st, some e)
    | .ok n =>
      if n > 0 then
        let stM := { st with meta := st.meta ++ [met] }
        if accLen stM.X > 0 then
          if re then
            match stM.X with
            | .pyList xs =>
                (accumOk stM (.pyList (xs ++ [res.X])) (stM.labels ++ res.labels) res rr, none)
            | .nd _ => (stM, some .typeError)
          else
            match stM.X with
            | .nd x0 =>
              match npAppend x0 res.X with
              | .error e => (stM, some e)
              | .ok x1 => (accumOk stM (.nd x1) (stM.labels ++ res.labels) res rr, none)
            | .pyList _ => (stM, some .typeError)
        else
          (accumOk stM (if re then .pyList [res.X] else .nd res.X) res.labels res rr, none)
      else (st, none)

/-- The run loop of one session, stopping at the first exception. -/
def runLoop (p : Config) (d : Dataset) (re rr : Bool) (subj sess : String) :
    Acc → List (String × Raw) → Acc × Option PyError
  | st, [] => (st, none)
  | st, r :: rs =>
    match runStep p d re rr subj sess st r with
    | (st', none) => runLoop p d re rr subj sess st' rs
    | (st', some e) => (st', some e)

/-- The session loop of one subject. -/
def sessLoop (p : Config) (d : Dataset) (re rr : Bool) (subj : String) :
    Acc → List (String × List (String × Raw)) → Acc × Option PyError
  | st, [] => (st, none)
  | st, s :: ss =>
    match runLoop p d re rr subj s.1 st s.2 with
    | (st', none) => sessLoop p d re rr subj st' ss
    | (st', some e) => (st', some e)

/-- The subject loop over the fetched dataset mapping. -/
def subjLoop (p : Config) (d : Dataset) (re rr : Bool) :
    Acc → DData → Acc × Option PyError
  | st, [] => (st, none)
  | st, s :: ss =>
    match sessLoop p d re rr s.1 st s.2 with
    | (st', none) => subjLoop p d re rr st' ss
    | (st', some e) => (st', some e)

/-- `x[0]` for the `return_epochs` comprehension `[x[0] for x in X]`
(base.py line 310): defined for per-band lists; any other entry cannot
arise from a constant-configuration accumulation. -/
def headEpochsOfItem (x : XData) : Except PyError EpochsObj :=
  match x with
  | .elist [] => .error .indexError
  | .elist (e :: _) => .ok e
  | _ => .error .typeError

/-- `x` as a bare `mne.Epochs`, for `mne.concatenate_epochs` on the
non-list entries. -/
def eobjOfItem (x : XData) : Except PyError EpochsObj :=
  match x with
  | .eobj e => .ok e
  | _ => .error .typeError

/-- The post-loop assembly (base.py lines 306-311): `pd.concat` on the
metadata frames (ValueError when no frame was accumulated), then in
`return_epochs` mode the first-band selection and
`mne.concatenate_epochs`. -/
def finalize (re : Bool) (st : Acc) : Except PyError (XData × List String × List MetaRow) :=
  if st.meta.isEmpty then .error (.valueError "No objects to concatenate")
  else
    let meta := st.meta.flatten
    if re then
      match st.X with
      | .pyList [] => .error .indexError
      | .pyList (x0 :: xs) =>
        match x0 with
        | .elist _ =>
          match emapM headEpochsOfItem (x0 :: xs) with
          | .error e => .error e
          | .ok [] => .error .indexError
          | .ok (h :: hs) =>
              .ok (.eobj ⟨((h :: hs).map EpochsObj.wins).flatten, h.span⟩, st.labels, meta)
        | .eobj _ =>
          match emapM eobjOfItem (x0 :: xs) with
          | .error e => .error e
          | .ok [] => .error .indexError
          | .ok (h :: hs) =>
              .ok (.eobj ⟨((h :: hs).map EpochsObj.wins).flatten, h.span⟩, st.labels, meta)
        | _ => .error .typeError
      | .nd _ => .error .typeError
    else
      match st.X with
      | .nd x => .ok (x, st.labels, meta)
      | .pyList _ => .error .typeError

/-- The non-cached body of `get_data` (base.py lines 261-332): the
validity assertion (message naming `dataset.code`), the data fetch, the
`prepare_process` hook, the triple loop, and the final assembly.  The
`Trace` records which collaborator operations ran. -/
def getDataMain (p : Config) (d : Dataset) (data : DData) (re rr : Bool) :
    Except PyError GOut × Trace :=
  if is_valid p d then
    match subjLoop p d re rr acc0 data with
    | (st, some e) => (.error e, ⟨true, true, true, st.procCalls⟩)
    | (st, none) =>
      match finalize re st with
      | .error e => (.error e, ⟨true, true, true, st.procCalls⟩)
      | .ok out =>
          (.ok ⟨out.1, out.2.1, out.2.2, some st.runsAux⟩, ⟨true, true, true, st.procCalls⟩)
  else
    (.error (.assertionError ("Dataset " ++ d.code ++ " is not valid for paradigm")),
      ⟨true, false, false, 0⟩)

/-- `BaseParadigm.get_data` (base.py lines 203-332).  `cacheRead` is the
outcome of the trusted pickle read (`none` = the read raised and the call
degrades to recomputation); a successful cached read returns the cached
triple with `None` as the fourth component, before any validity check,
fetch or processing.  The best-effort cache write has no effect on the
returned value and is not modelled. -/
def getData (p : Config) (d : Dataset) (data : DData) (cacheOn : Bool)
    (cacheRead : Option CacheTriple) (re rr : Bool) : Except PyError GOut × Trace :=
  match cacheOn, cacheRead with
  | true, some t => (.ok ⟨t.X, t.labels, t.meta, none⟩, ⟨false, false, false, 0⟩)
  | true, none => getDataMain p d data re rr
  | false, _ => getDataMain p d data re rr

/-! ## Result extractors (observation helpers for theorems) -/

/-- The raised exception of a fallible call, if any. -/
def errOf : Except PyError α → Option PyError
  | .error e => some e
  | .ok _ => none

/-- The non-sentinel run result of a `BaseP300.process_raw` call. -/
def procResult (r : Except PyError (Raw × Option RunResult)) : Option RunResult :=
  r.toOption.bind Prod.snd

/-- The recording as left behind by a successful `BaseP300.process_raw`
call. -/
def resultRaw (r : Except PyError (Raw × Option RunResult)) : Option Raw :=
  r.toOption.map Prod.fst

/-- The extraction window recorded in the epoching kwargs of a successful
`BaseP300.process_raw` call. -/
def resKwBounds (r : Except PyError (Raw × Option RunResult)) : Option (ℚ × ℚ) :=
  match procResult r with
  | some res =>
    match res.aux with
    | .p300Aux _ _ kw => some (kw.tmin, kw.tmax)
    | _ => none
  | none => none

/-- The annotation set of the recording left behind by a successful
`BaseP300.process_raw` call. -/
def resRawAnnots (r : Except PyError (Raw × Option RunResult)) : Option (List Annot) :=
  (resultRaw r).map Raw.annots

/-- The successful output of a `get_data` call. -/
def okOut (r : Except PyError GOut × Trace) : Option GOut :=
  r.1.toOption

/-! ## Concrete fixtures used by witnesses and counterexamples -/

/-- A P300 dataset with scalar Target/NonTarget codes and task interval
`(0, 1)`. -/
def dsP : Dataset :=
  { paradigm := "p300"
    event_id := [("Target", .single 1), ("NonTarget", .single 0)]
    interval := (0, 1)
    unit_factor := 1
    code := "FakeDS" }

/-- The default P300 recipe (single band, Target/NonTarget whitelist). -/
def cfgP : Config :=
  { filters := [(1, 24)]
    events := some ["Target", "NonTarget"]
    tmin := 0
    tmax := none
    reject_tmin := none
    reject_tmax := none
    baseline := none
    channels := none
    resample := none
    reject_uv := none
    reject_from_eog := .off }

/-- A recording with a stim channel, one Target and one NonTarget event,
and two retained one-channel one-sample windows per band. -/
def rawGood : Raw :=
  { signal := [("Cz", [1, 2, 3])]
    ch_names := ["Cz", "STI 014"]
    annots := []
    stim_channels := ["STI 014"]
    stimEvents := [⟨10, 0, 1⟩, ⟨20, 0, 0⟩]
    annotEventsAll := some []
    annotEventsById := some []
    sfreq := 100
    eogEvents := []
    eegPicks := ["Cz"]
    bandEpochs := fun _ => [(1, [[5]]), (0, [[6]])] }

/-- Like `rawGood`, but every window is rejected by the trusted epoching
and rejection step. -/
def rawEmpty : Raw :=
  { rawGood with bandEpochs := fun _ => [] }

/-- One subject, one session, two runs: a normal run followed by a run
whose entire window set is rejected. -/
def dataC2 : DData :=
  [("1", [("s0", [("r0", rawGood), ("r1", rawEmpty)])])]

/-- The C1 recipe: explicit `tmax = 0.8` and a baseline `(-0.2, 0)`
extending below `tmin = 0`. -/
def cfgC1 : Config :=
  { cfgP with
    tmax := some (4/5)
    baseline := some (-(1/5), 0) }

/-- A two-band recipe. -/
def cfg2 : Config :=
  { cfgP with filters := [(1, 10), (10, 24)] }

/-- A recording whose band-dependent amplitude rejection retains one
window on the first band and none on the second. -/
def rawC3 : Raw :=
  { rawGood with bandEpochs := fun i => if i = 0 then [(1, [[5]])] else [] }

/-- A two-band recipe with an amplitude-rejection threshold (so the
per-band `drop_bad` runs and retention may differ across bands). -/
def cfgC3 : Config :=
  { cfg2 with reject_uv := some 100 }

/-- Batch containing only the band-dependently rejected recording. -/
def dataC3 : DData :=
  [("1", [("s0", [("r0", rawC3)])])]

/-- A recording with no stim channel whose annotation decoding raises. -/
def rawC5 : Raw :=
  { rawGood with
    stim_channels := []
    annotEventsAll := none
    annotEventsById := none }

/-- A recording with a stim channel but only events outside the
vocabulary. -/
def rawNoMatch : Raw :=
  { rawGood with stimEvents := [⟨10, 0, 7⟩] }

/-- The C6 recipe: `reject_tmax` equal to the dataset's task-interval
upper bound (and a valid construction otherwise). -/
def cfgC6 : Config :=
  { cfgP with reject_tmax := some 1 }

/-- A dataset whose declared paradigm tag is not "p300". -/
def dsImagery : Dataset :=
  { dsP with paradigm := "imagery" }

/-- The C8 recipe: EOG-based rejection using the dataset default
channel. -/
def cfgC8 : Config :=
  { cfgP with reject_from_eog := .useDefault }

/-- A recording with one detected EOG artifact at sample 100. -/
def rawC8 : Raw :=
  { rawGood with eogEvents := [100] }

/-- Two subjects in traversal order, one run each. -/
def dataC9 : DData :=
  [("1", [("s0", [("r0", rawGood)])]), ("2", [("s0", [("r0", rawGood)])])]

/-! ## Supporting lemmas -/

theorem emapM_length {f : α → Except PyError β} :
    ∀ {l : List α} {l' : List β}, emapM f l = .ok l' → l'.length = l.length := by
  intro l
  induction l with
  | nil => intro l' h; cases h; rfl
  | cons a as ih =>
    intro l' h
    unfold emapM at h
    cases hf : f a with
    | error e => rw [hf] at h; cases h
    | ok b =>
      rw [hf] at h
      cases hr : emapM f as with
      | error e => rw [hr] at h; cases h
      | ok bs => rw [hr] at h; cases h; simp [ih hr]

theorem arr3Shape_fst {a : Arr3} {s : Nat × Nat × Nat} (h : arr3Shape a = some s) :
    a.length = s.1 := by
  unfold arr3Shape at h
  split at h
  · cases h; rfl
  · split at h
    · cases h
    · split at h
      · cases h; simp
      · cases h

theorem scaleArr3_length (uf : ℚ) (a : Arr3) : (scaleArr3 uf a).length = a.length := by
  simp [scaleArr3]

theorem epochsGetData_length (e : EpochsObj) : (epochsGetData e).length = e.wins.length := by
  simp [epochsGetData]

theorem stackTranspose_ok {xs : List Arr3} {a : Arr4} (h : stackTranspose xs = .ok a) :
    ∃ s : Nat × Nat × Nat, a.length = s.1 ∧ ∀ y ∈ xs, arr3Shape y = some s := by
  unfold stackTranspose at h
  split at h
  · cases h
  · next x rest =>
    split at h
    · cases h
    · next s hs =>
      split at h
      · next hall =>
        cases h
        refine ⟨s, by simp, ?_⟩
        intro y hy
        rcases List.mem_cons.mp hy with rfl | hy'
        · exact hs
        · exact of_decide_eq_true (List.all_eq_true.mp hall y hy')
      · cases h

theorem stackTranspose_inner {xs : List Arr3} {a : Arr4} (h : stackTranspose xs = .ok a) :
    ∀ w ∈ a, ∀ c ∈ w, ∀ smp ∈ c, smp.length = xs.length := by
  unfold stackTranspose at h
  split at h
  · cases h
  · next x rest =>
    split at h
    · cases h
    · split at h
      · cases h
        intro w hw c hc smp hsmp
        rcases List.mem_map.mp hw with ⟨i, _, rfl⟩
        rcases List.mem_map.mp hc with ⟨ci, _, rfl⟩
        rcases List.mem_map.mp hsmp with ⟨ti, _, rfl⟩
        simp
      · cases h

theorem npAppend_windows {a b c : XData} (h : npAppend a b = .ok c) :
    xWindows c = xWindows a + xWindows b := by
  unfold npAppend at h
  split at h
  · split at h
    · split at h
      · cases h; simp [xWindows]
      · cases h
    · cases h
  · split at h
    · split at h
      · cases h; simp [xWindows]
      · cases h
    · cases h
  · cases h

theorem procResult_eq_some {x : Except PyError (Raw × Option RunResult)} {res : RunResult}
    (h : procResult x = some res) : ∃ r', x = .ok (r', some res) := by
  unfold procResult at h
  match x with
  | .error e => simp [Except.toOption] at h
  | .ok (r1, o) =>
    simp [Except.toOption] at h
    exact ⟨r1, by rw [h]⟩

theorem p300Bands_ok_parts {p : Config} {d : Dataset} {raw : Raw} {re rr : Bool}
    {picks : List String} {epk : EventPickOut} {r' : Raw} {res : RunResult}
    (h : p300Bands p d raw re rr picks epk = .ok (r', some res)) :
    r' = raw ∧
    ∃ lastE,
      ((List.range p.filters.length).map (fun i => bandEpoch p d raw i)).getLast? = some lastE ∧
      res.labels.length = lastE.wins.length ∧
      res.metaRows = res.labels.length ∧
      p300AssembleX p d re ((List.range p.filters.length).map (fun i => bandEpoch p d raw i)) =
        .ok res.X := by
  unfold p300Bands at h
  split at h
  · cases h
  · split at h
    · cases h
    · split at h
      · cases h
      · next lastE hlast =>
        split at h
        · cases h
        · next labels hlab =>
          split at h
          · cases h
          · next X hX =>
            cases h
            refine ⟨rfl, lastE, hlast, ?_, rfl, hX⟩
            unfold labelsOf at hlab
            exact emapM_length hlab

theorem p300Bands_fst {p : Config} {d : Dataset} {raw : Raw} {re rr : Bool}
    {picks : List String} {epk : EventPickOut} {r' : Raw} {o : Option RunResult}
    (h : p300Bands p d raw re rr picks epk = .ok (r', o)) : r' = raw := by
  unfold p300Bands at h
  split at h
  · cases h
  · split at h
    · cases h
    · split at h
      · cases h
      · split at h
        · cases h
        · split at h
          · cases h
          · cases h; rfl

theorem p300ProcessRaw_ok_raw {p : Config} {d : Dataset} {raw0 : Raw} {re rr : Bool}
    {r' : Raw} {o : Option RunResult}
    (h : p300ProcessRaw p d raw0 re rr = .ok (r', o)) :
    eogStage p raw0 = .ok r' := by
  unfold p300ProcessRaw at h
  split at h
  · cases h
  · next raw1 heog =>
    split at h
    · cases h
    · split at h
      · cases h
      · split at h
        · cases h
        · split at h
          · cases h
          · cases h; exact heog
          · rw [p300Bands_fst h]; exact heog

theorem p300ProcessRaw_ok_cases {p : Config} {d : Dataset} {raw0 : Raw} {re rr : Bool}
    {r' : Raw} {res : RunResult}
    (h : p300ProcessRaw p d raw0 re rr = .ok (r', some res)) :
    ∃ raw picks epk, p300Bands p d raw re rr picks epk = .ok (r', some res) := by
  unfold p300ProcessRaw at h
  split at h
  · cases h
  · next raw1 heog =>
    split at h
    · cases h
    · split at h
      · cases h
      · next picks hp =>
        split at h
        · cases h
        · split at h
          · cases h
          · cases h
          · next epk hepk => exact ⟨raw1, picks, epk, h⟩

theorem p300AssembleX_windows {p : Config} {d : Dataset} {bandEps : List EpochsObj}
    {lastE : EpochsObj} {X : XData}
    (hlen : bandEps.length = p.filters.length)
    (hlast : bandEps.getLast? = some lastE)
    (h : p300AssembleX p d false bandEps = .ok X) :
    xWindows X = lastE.wins.length := by
  unfold p300AssembleX at h
  split at h
  · next hre => exact absurd hre (by simp)
  · split at h
    · next hone =>
      match bandEps, hlen, hlast, h with
      | [e], _, hlast, h =>
        cases h
        cases hlast
        simp [xWindows, scaleArr3, epochsGetData]
      | [], hlen, _, h => cases h
      | e :: f :: rest, hlen, _, h =>
        exfalso
        rw [hone] at hlen
        simp at hlen
    · cases hst : stackTranspose (bandEps.map fun e => scaleArr3 d.unit_factor (epochsGetData e)) with
      | error e => rw [hst] at h; cases h
      | ok a =>
        rw [hst] at h
        cases h
        obtain ⟨s, hlen', hmem⟩ := stackTranspose_ok hst
        have hin : scaleArr3 d.unit_factor (epochsGetData lastE) ∈
            bandEps.map (fun e => scaleArr3 d.unit_factor (epochsGetData e)) :=
          List.mem_map.mpr ⟨lastE, List.mem_of_getLast?_eq_some hlast, rfl⟩
        have := arr3Shape_fst (hmem _ hin)
        simp only [xWindows, hlen']
        rw [← this]
        simp [scaleArr3, epochsGetData]

theorem p300_ok_len {p : Config} {d : Dataset} {raw0 : Raw} {rr : Bool} {res : RunResult}
    (h : procResult (p300ProcessRaw p d raw0 false rr) = some res) :
    res.labels.length = xWindows res.X ∧ res.metaRows = res.labels.length := by
  obtain ⟨r', h⟩ := procResult_eq_some h
  obtain ⟨raw, picks, epk, hb⟩ := p300ProcessRaw_ok_cases h
  obtain ⟨-, lastE, hlast, hlab, hmeta, hX⟩ := p300Bands_ok_parts hb
  refine ⟨?_, hmeta⟩
  rw [hlab, p300AssembleX_windows (by simp) hlast hX]

theorem get?_append_cases {l1 l2 : List α} {n : Nat} {a : α}
    (h : (l1 ++ l2).get? n = some a) :
    (n < l1.length ∧ a ∈ l1) ∨ (l1.length ≤ n ∧ a ∈ l2) := by
  induction l1 generalizing n with
  | nil => exact Or.inr ⟨Nat.zero_le n, List.get?_mem h⟩
  | cons b bs ih =>
    match n with
    | 0 =>
      cases h
      exact Or.inl ⟨Nat.succ_pos _, List.mem_cons_self _ _⟩
    | Nat.succ m =>
      rcases ih (h := h) with ⟨hm, hmem⟩ | ⟨hm, hmem⟩
      · exact Or.inl ⟨Nat.succ_lt_succ hm, List.mem_cons_of_mem _ hmem⟩
      · exact Or.inr ⟨Nat.succ_le_succ hm, hmem⟩

theorem procResult_of {p : Config} {d : Dataset} {raw : Raw} {re rr : Bool}
    {r' : Raw} {res : RunResult}
    (h : p300ProcessRaw p d raw re rr = .ok (r', some res)) :
    procResult (p300ProcessRaw p d raw re rr) = some res := by
  rw [procResult, h]; rfl

theorem getData_false_eq (p : Config) (d : Dataset) (data : DData)
    (cacheRead : Option CacheTriple) (re rr : Bool) :
    getData p d data false cacheRead re rr = getDataMain p d data re rr := rfl

theorem getDataMain_ok {p : Config} {d : Dataset} {data : DData} {re rr : Bool}
    {out : GOut} {tr : Trace}
    (h : getDataMain p d data re rr = (.ok out, tr)) :
    is_valid p d = true ∧
    ∃ st, subjLoop p d re rr acc0 data = (st, none) ∧
      finalize re st = .ok (out.X, out.labels, out.meta) ∧ out.runs = some st.runsAux := by
  unfold getDataMain at h
  split at h
  · next hv =>
    split at h
    · next st e heq => cases h
    · next st heq =>
      split at h
      · cases h
      · next o hfin =>
        cases h
        exact ⟨hv, st, heq, hfin, rfl⟩
  · cases h

/-- The array-mode accumulation invariant maintained by the aggregation
loop: an untouched accumulator is fully empty; otherwise the window axis,
the label vector and the stamped metadata rows agree. -/
def accInv (st : Acc) : Prop :=
  match st.X with
  | .pyList [] => st.labels = [] ∧ st.meta = []
  | .pyList (_ :: _) => False
  | .nd x => xWindows x = st.labels.length ∧ st.meta.flatten.length = st.labels.length

theorem accInv_acc0 : accInv acc0 := ⟨rfl, rfl⟩

theorem runStep_inv {p : Config} {d : Dataset} {rr : Bool} {subj sess : String}
    {st0 st' : Acc} {r : String × Raw}
    (hinv : accInv st0) (h : runStep p d false rr subj sess st0 r = (st', none)) :
    accInv st' := by
  simp only [runStep] at h
  split at h
  · cases h
  · cases h; exact hinv
  · next r1 res heq =>
    have hlen := p300_ok_len (procResult_of heq)
    split at h
    · cases h
    · next n hn =>
      split at h
      · -- n > 0: accumulate
        split at h
        · -- len(X) > 0: grow
          split at h
          · next hre => exact absurd hre (by simp)
          · -- re = false: np.append growth
            split at h
            · -- st0.X = nd x0
              next x0 hx0 =>
              split at h
              · cases h
              · next x1 happ =>
                cases h
                have hw := npAppend_windows happ
                unfold accInv at hinv
                rw [hx0] at hinv
                simp only [accInv, accumOk]
                refine ⟨?_, ?_⟩
                · simp [hw, hinv.1, hlen.1]
                · simp [List.flatten_append, hinv.2, hlen.2, hlen.1]
            · cases h
        · -- len(X) == 0: first accumulation
          next hn0 =>
          split at h
          · next habs => exact absurd habs (by simp)
          · cases h
            unfold accInv at hinv
            simp only [accInv, accumOk]
            refine ⟨hlen.1.symm, ?_⟩
            cases hx : st0.X with
            | pyList xs =>
              rw [hx] at hinv
              cases xs with
              | nil => simp [hinv.2, hlen.2]
              | cons y ys => exact hinv.elim
            | nd x =>
              rw [hx] at hinv
              have hx0 : xWindows x = 0 := by
                by_contra hne
                exact hn0 (by simpa [accLen, hx] using Nat.pos_of_ne_zero hne)
              have hl0 : st0.labels.length = 0 := by rw [← hinv.1, hx0]
              simp [List.flatten_append, hinv.2, hl0, hlen.2]
      · cases h; exact hinv

theorem runLoop_inv {p : Config} {d : Dataset} {rr : Bool} {subj sess : String} :
    ∀ {runs : List (String × Raw)} {st st' : Acc},
      accInv st → runLoop p d false rr subj sess st runs = (st', none) → accInv st'
  | [], _, _, hinv, h => by cases h; exact hinv
  | r :: rs, st, st', hinv, h => by
    unfold runLoop at h
    split at h
    · next st1 heq =>
      exact runLoop_inv (runStep_inv hinv heq) h
    · cases h

theorem sessLoop_inv {p : Config} {d : Dataset} {rr : Bool} {subj : String} :
    ∀ {sessions : List (String × List (String × Raw))} {st st' : Acc},
      accInv st → sessLoop p d false rr subj st sessions = (st', none) → accInv st'
  | [], _, _, hinv, h => by cases h; exact hinv
  | s :: ss, st, st', hinv, h => by
    unfold sessLoop at h
    split at h
    · next st1 heq =>
      exact sessLoop_inv (runLoop_inv hinv heq) h
    · cases h

theorem subjLoop_inv {p : Config} {d : Dataset} {rr : Bool} :
    ∀ {data : DData} {st st' : Acc},
      accInv st → subjLoop p d false rr st data = (st', none) → accInv st'
  | [], _, _, hinv, h => by cases h; exact hinv
  | s :: ss, st, st', hinv, h => by
    unfold subjLoop at h
    split at h
    · next st1 heq =>
      exact subjLoop_inv (sessLoop_inv hinv heq) h
    · cases h

theorem finalize_false_ok {st : Acc} {X : XData} {labels : List String} {meta : List MetaRow}
    (hinv : accInv st) (h : finalize false st = .ok (X, labels, meta)) :
    labels.length = xWindows X ∧ meta.length = labels.length := by
  simp only [finalize] at h
  split at h
  · cases h
  · next hne =>
    split at h
    · next hre => exact absurd hre (by simp)
    · split at h
      · next x hx =>
        cases h
        unfold accInv at hinv
        rw [hx] at hinv
        exact ⟨hinv.1.symm, hinv.2⟩
      · next xs hx =>
        exfalso
        unfold accInv at hinv
        rw [hx] at hinv
        cases xs with
        | nil => exact hne (by simp [hinv.2])
        | cons y ys => exact hinv.elim

theorem mem_metaBlock {n : Nat} {subj sess rn : String} {m : MetaRow}
    (hm : m ∈ ([List.replicate n (⟨subj, sess, rn⟩ : MetaRow)] : List (List MetaRow)).flatten) :
    m.subject = subj := by
  simp only [List.flatten, List.append_nil] at hm
  rw [List.eq_of_mem_replicate hm]

theorem runStep_meta {p : Config} {d : Dataset} {re rr : Bool} {subj sess : String}
    {st st' : Acc} {r : String × Raw} {e? : Option PyError}
    (h : runStep p d re rr subj sess st r = (st', e?)) :
    ∃ add, st'.meta = st.meta ++ add ∧ ∀ m ∈ add.flatten, m.subject = subj := by
  simp only [runStep] at h
  split at h
  · cases h; exact ⟨[], by simp, by simp⟩
  · cases h; exact ⟨[], by simp, by simp⟩
  · next r1 res heq =>
    split at h
    · cases h; exact ⟨[], by simp, by simp⟩
    · split at h
      · split at h
        · split at h
          · split at h
            · cases h
              exact ⟨_, rfl, fun m hm => mem_metaBlock hm⟩
            · cases h
              exact ⟨_, rfl, fun m hm => mem_metaBlock hm⟩
          · split at h
            · split at h
              · cases h
                exact ⟨_, rfl, fun m hm => mem_metaBlock hm⟩
              · cases h
                exact ⟨_, rfl, fun m hm => mem_metaBlock hm⟩
            · cases h
              exact ⟨_, rfl, fun m hm => mem_metaBlock hm⟩
        · split at h
          · cases h
            exact ⟨_, rfl, fun m hm => mem_metaBlock hm⟩
          · cases h
            exact ⟨_, rfl, fun m hm => mem_metaBlock hm⟩
      · cases h; exact ⟨[], by simp, by simp⟩

theorem runLoop_meta {p : Config} {d : Dataset} {re rr : Bool} {subj sess : String} :
    ∀ {runs : List (String × Raw)} {st st' : Acc} {e? : Option PyError},
      runLoop p d re rr subj sess st runs = (st', e?) →
      ∃ add, st'.meta = st.meta ++ add ∧ ∀ m ∈ add.flatten, m.subject = subj
  | [], _, _, _, h => by cases h; exact ⟨[], by simp, by simp⟩
  | r :: rs, st, st', e?, h => by
    unfold runLoop at h
    split at h
    · next st1 heq =>
      obtain ⟨a1, h1, hs1⟩ := runStep_meta heq
      obtain ⟨a2, h2, hs2⟩ := runLoop_meta h
      refine ⟨a1 ++ a2, by rw [h2, h1, List.append_assoc], ?_⟩
      intro m hm
      rw [List.flatten_append] at hm
      rcases List.mem_append.mp hm with hm | hm
      · exact hs1 m hm
      · exact hs2 m hm
    · next st1 e heq =>
      cases h
      exact runStep_meta heq

theorem sessLoop_meta {p : Config} {d : Dataset} {re rr : Bool} {subj : String} :
    ∀ {sessions : List (String × List (String × Raw))} {st st' : Acc} {e? : Option PyError},
      sessLoop p d re rr subj st sessions = (st', e?) →
      ∃ add, st'.meta = st.meta ++ add ∧ ∀ m ∈ add.flatten, m.subject = subj
  | [], _, _, _, h => by cases h; exact ⟨[], by simp, by simp⟩
  | s :: ss, st, st', e?, h => by
    unfold sessLoop at h
    split at h
    · next st1 heq =>
      obtain ⟨a1, h1, hs1⟩ := runLoop_meta heq
      obtain ⟨a2, h2, hs2⟩ := sessLoop_meta h
      refine ⟨a1 ++ a2, by rw [h2, h1, List.append_assoc], ?_⟩
      intro m hm
      rw [List.flatten_append] at hm
      rcases List.mem_append.mp hm with hm | hm
      · exact hs1 m hm
      · exact hs2 m hm
    · next st1 e heq =>
      cases h
      exact runLoop_meta heq

theorem subjLoop_meta {p : Config} {d : Dataset} {re rr : Bool} :
    ∀ {data : DData} {st st' : Acc} {e? : Option PyError},
      subjLoop p d re rr st data = (st', e?) →
      ∃ add, st'.meta = st.meta ++ add ∧ ∀ m ∈ add.flatten, m.subject ∈ data.map Prod.fst
  | [], _, _, _, h => by cases h; exact ⟨[], by simp, by simp⟩
  | s :: ss, st, st', e?, h => by
    unfold subjLoop at h
    split at h
    · next st1 heq =>
      obtain ⟨a1, h1, hs1⟩ := sessLoop_meta heq
      obtain ⟨a2, h2, hs2⟩ := subjLoop_meta h
      refine ⟨a1 ++ a2, by rw [h2, h1, List.append_assoc], ?_⟩
      intro m hm
      rw [List.flatten_append] at hm
      rcases List.mem_append.mp hm with hm | hm
      · exact (hs1 m hm) ▸ List.mem_cons_self _ _
      · exact List.mem_cons_of_mem _ (hs2 m hm)
    · next st1 e heq =>
      cases h
      obtain ⟨a1, h1, hs1⟩ := sessLoop_meta heq
      exact ⟨a1, h1, fun m hm => (hs1 m hm) ▸ List.mem_cons_self _ _⟩

theorem subjLoop_split {p : Config} {d : Dataset} {re rr : Bool} {s1 s2 : String} :
    ∀ {data : DData} {st st' : Acc} {e? : Option PyError},
      subjLoop p d re rr st data = (st', e?) →
      (data.map Prod.fst).Nodup →
      [s1, s2].Sublist (data.map Prod.fst) →
      ∃ t1 t2, st'.meta.flatten = st.meta.flatten ++ t1 ++ t2 ∧
        (∀ m ∈ t1, m.subject ≠ s2) ∧ (∀ m ∈ t2, m.subject ≠ s1)
  | [], _, _, _, _, _, hsub => by simp at hsub
  | (k, sess) :: ss, st, st', e?, h, hnd, hsub => by
    unfold subjLoop at h
    have hmap : (((k, sess) :: ss).map Prod.fst) = k :: ss.map Prod.fst := rfl
    rw [hmap] at hnd hsub
    have hk : k ∉ ss.map Prod.fst := (List.nodup_cons.mp hnd).1
    have hnd' := (List.nodup_cons.mp hnd).2
    split at h
    · next st1 heq =>
      obtain ⟨ak, hak, hsk⟩ := sessLoop_meta heq
      cases hsub with
      | cons _ hsub' =>
        have hs1m : s1 ∈ ss.map Prod.fst := hsub'.subset (by simp)
        have hs2m : s2 ∈ ss.map Prod.fst := hsub'.subset (by simp)
        have hks2 : k ≠ s2 := fun he => hk (he ▸ hs2m)
        obtain ⟨t1, t2, ht, h1, h2⟩ := subjLoop_split h hnd' hsub'
        refine ⟨ak.flatten ++ t1, t2, ?_, ?_, h2⟩
        · simp [ht, hak, List.flatten_append, List.append_assoc]
        · intro m hm
          rcases List.mem_append.mp hm with hm | hm
          · have := hsk m hm
            exact fun hcon => hks2 (this.symm.trans hcon)
          · exact h1 m hm
      | cons₂ _ hsub' =>
        have hs2m : s2 ∈ ss.map Prod.fst := hsub'.subset (by simp)
        have hks2 : s1 ≠ s2 := fun he => hk (he ▸ hs2m)
        obtain ⟨ar, har, hsr⟩ := subjLoop_meta h
        refine ⟨ak.flatten, ar.flatten, ?_, ?_, ?_⟩
        · simp [har, hak, List.flatten_append, List.append_assoc]
        · intro m hm
          have := hsk m hm
          exact fun hcon => hks2 (this.symm.trans hcon)
        · intro m hm
          have := hsr m hm
          exact fun hcon => hk (hcon ▸ this)
    · next st1 e heq =>
      cases h
      obtain ⟨ak, hak, hsk⟩ := sessLoop_meta heq
      cases hsub with
      | cons _ hsub' =>
        have hs2m : s2 ∈ ss.map Prod.fst := hsub'.subset (by simp)
        have hks2 : k ≠ s2 := fun he => hk (he ▸ hs2m)
        refine ⟨ak.flatten, [], by simp [hak, List.flatten_append], ?_, by simp⟩
        intro m hm
        have := hsk m hm
        exact fun hcon => hks2 (this.symm.trans hcon)
      | cons₂ _ hsub' =>
        have hs2m : s2 ∈ ss.map Prod.fst := hsub'.subset (by simp)
        have hks2 : s1 ≠ s2 := fun he => hk (he ▸ hs2m)
        refine ⟨ak.flatten, [], by simp [hak, List.flatten_append], ?_, by simp⟩
        intro m hm
        have := hsk m hm
        exact fun hcon => hks2 (this.symm.trans hcon)

theorem finalize_meta {re : Bool} {st : Acc} {o : XData × List String × List MetaRow}
    (h : finalize re st = .ok o) : o.2.2 = st.meta.flatten := by
  simp only [finalize] at h
  split at h
  · cases h
  · split at h
    · split at h
      · cases h
      · split at h
        · split at h
          · cases h
          · cases h
          · cases h; rfl
        · split at h
          · cases h
          · cases h
          · cases h; rfl
        · cases h
      · cases h
    · split at h
      · cases h; rfl
      · cases h

theorem p300AssembleX_rank {p : Config} {d : Dataset} {bandEps : List EpochsObj} {X : XData}
    (h : p300AssembleX p d false bandEps = .ok X) :
    (p.filters.length = 1 → ∃ a, X = .arr3 a) ∧
    (p.filters.length ≠ 1 → ∃ a, X = .arr4 a ∧
      ∀ w ∈ a, ∀ c ∈ w, ∀ smp ∈ c, smp.length = bandEps.length) := by
  unfold p300AssembleX at h
  split at h
  · next hre => exact absurd hre (by simp)
  · split at h
    · next hone =>
      constructor
      · intro _
        match bandEps, h with
        | e :: rest, h => cases h; exact ⟨_, rfl⟩
        | [], h => cases h
      · intro hne; exact absurd hone hne
    · next hone =>
      constructor
      · intro h1; exact absurd h1 hone
      · intro _
        cases hst : stackTranspose (bandEps.map fun e => scaleArr3 d.unit_factor (epochsGetData e)) with
        | error e => rw [hst] at h; cases h
        | ok a =>
          rw [hst] at h; cases h
          refine ⟨a, rfl, ?_⟩
          have := stackTranspose_inner hst
          simpa using this

theorem rejectTmaxCheck_some {p : Config} {d : Dataset} {r : ℚ}
    (hp : p.reject_tmax = some r) :
    rejectTmaxCheck p d =
      if r ≥ d.interval.2 then
        .error (.valueError "reject_tmax needs to be shorter than tmax")
      else .ok () := by
  unfold rejectTmaxCheck
  rw [hp]

/-! ## Claim theorems -/

/-- C1: the spec states that `process_raw` widens the epoch extraction
window to `min(tmin, bmin)..max(tmax, bmax)` before epoching and crops
back to `[tmin, tmax]` after baseline correction.
`BaseParadigm.process_raw` does hand `mne.Epochs` the widened bounds, but
`BaseP300.process_raw` hands it the unwidened `[tmin, tmax]` (p300.py
lines 205-206), leaving the `bmin`/`bmax` computation and the conditional
crop of lines 198-202 and 224-225 dead: at `tmin = 0`, `tmax = 0.8`,
`baseline = (-0.2, 0)`, task interval `(0, 1)`, the widened window is
`[-0.2, 0.8]`, yet the epoching kwargs returned in the auxiliary tuple
carry `(0, 0.8)`, so baseline samples below `tmin` are never extracted
and cannot influence the subtracted mean. -/
theorem c1_p300_extraction_window_not_widened :
    cfgC1.baseline = some (-(1/5), 0) ∧
    baseEpochBounds cfgC1 dsP = (-(1/5), 4/5) ∧
    p300EpochBounds cfgC1 dsP = (0, 4/5) ∧
    p300EpochBounds cfgC1 dsP ≠ baseEpochBounds cfgC1 dsP ∧
    resKwBounds (p300ProcessRaw cfgC1 dsP rawGood false false) = some (0, 4/5) := by
  decide

/-- C2: the spec states that a run whose entire window set is rejected
contributes zero rows with only a cautionary message.  In array mode the
guard `len(x[0]) > 0` (base.py line 290) indexes the empty feature array
and raises IndexError, aborting the whole `get_data` call — the rows of
the earlier normal run are lost too.  Both runs were processed
(`procCalls = 2`) before the abort. -/
theorem c2_zero_window_run_raises_index_error :
    errOf (getData cfgP dsP dataC2 false none false false).1 = some .indexError ∧
    (getData cfgP dsP dataC2 false none false false).2 = ⟨true, true, true, 2⟩ := by
  decide

/-- C3 counterexample: with `return_epochs=True`, two filter bands and a
band-dependent amplitude rejection that keeps one window on band 0 and
none on band 1, `get_data` returns: the concatenated feature value holds
1 window while the label vector and metadata have 0 entries, so the
claimed three-way length equality fails on a returning call. -/
theorem c3_epochs_mode_length_mismatch :
    (okOut (getData cfgC3 dsP dataC3 false none true false)).map
      (fun g => (xWindows g.X, g.labels.length, g.meta.length)) = some (1, 0, 0) := by
  decide

/-- C3 (amended): with `return_epochs=False` (array mode) the three-way
equality does hold for every returning call: at `process_raw` level the
label vector, the feature window axis and the metadata row count agree,
and at `get_data` level (non-cached) the combined outputs agree as
well. -/
theorem c3_lengths_agree_in_array_mode :
    (∀ (p : Config) (d : Dataset) (raw : Raw) (rr : Bool) (res : RunResult),
      procResult (p300ProcessRaw p d raw false rr) = some res →
      res.labels.length = xWindows res.X ∧ res.metaRows = res.labels.length) ∧
    (∀ (p : Config) (d : Dataset) (data : DData) (cacheRead : Option CacheTriple)
      (rr : Bool) (out : GOut) (tr : Trace),
      getData p d data false cacheRead false rr = (.ok out, tr) →
      out.labels.length = xWindows out.X ∧ out.meta.length = out.labels.length) := by
  constructor
  · exact fun p d raw rr res h => p300_ok_len h
  · intro p d data cacheRead rr out tr h
    rw [getData_false_eq] at h
    obtain ⟨hv, st, hloop, hfin, hruns⟩ := getDataMain_ok h
    exact finalize_false_ok (subjLoop_inv accInv_acc0 hloop) hfin

/-- Expected `process_raw` result for the default recipe on `rawGood`. -/
def resW3 : RunResult :=
  { X := .arr3 [[[5]], [[6]]]
    labels := ["Target", "NonTarget"]
    metaRows := 2
    aux := .p300Aux [none]
      [⟨10, 0, 1⟩, ⟨20, 0, 0⟩]
      { eid := [("Target", .single 1), ("NonTarget", .single 0)]
        tmin := 0
        tmax := 1
        reject_tmin := none
        reject_tmax := none
        baseline := none
        picks := ["Cz"]
        rejectByAnnot := false } }

/-- Expected combined `get_data` output over the two-subject batch. -/
def goutW3 : GOut :=
  { X := .arr3 [[[5]], [[6]], [[5]], [[6]]]
    labels := ["Target", "NonTarget", "Target", "NonTarget"]
    meta := [⟨"1", "s0", "r0"⟩, ⟨"1", "s0", "r0"⟩, ⟨"2", "s0", "r0"⟩, ⟨"2", "s0", "r0"⟩]
    runs := some [] }

/-- C3 witness: the amended theorem applied at a concrete recipe,
recording and batch. -/
theorem c3_lengths_agree_in_array_mode_witness :
    procResult (p300ProcessRaw cfgP dsP rawGood false false) = some resW3 ∧
    (resW3.labels.length = xWindows resW3.X ∧ resW3.metaRows = resW3.labels.length) ∧
    getData cfgP dsP dataC9 false none false false = (.ok goutW3, ⟨true, true, true, 2⟩) ∧
    (goutW3.labels.length = xWindows goutW3.X ∧ goutW3.meta.length = goutW3.labels.length) :=
  ⟨by decide,
   c3_lengths_agree_in_array_mode.1 cfgP dsP rawGood false resW3 (by decide),
   by decide,
   c3_lengths_agree_in_array_mode.2 cfgP dsP dataC9 none false goutW3
     ⟨true, true, true, 2⟩ (by decide)⟩

/-- C4: with `return_epochs=False`, a single-band recipe yields a rank-3
feature array whose leading (window) axis matches the label vector, and a
multi-band recipe yields a rank-4 array whose trailing axis is the band
axis of length equal to the number of configured bands. -/
theorem c4_feature_array_rank :
    ∀ (p : Config) (d : Dataset) (raw : Raw) (rr : Bool) (res : RunResult),
      procResult (p300ProcessRaw p d raw false rr) = some res →
      (p.filters.length = 1 → ∃ a, res.X = .arr3 a ∧ a.length = res.labels.length) ∧
      (1 < p.filters.length → ∃ a, res.X = .arr4 a ∧ a.length = res.labels.length ∧
        ∀ w ∈ a, ∀ c ∈ w, ∀ smp ∈ c, smp.length = p.filters.length) := by
  intro p d raw rr res h
  obtain ⟨r', h⟩ := procResult_eq_some h
  obtain ⟨raw1, picks, epk, hb⟩ := p300ProcessRaw_ok_cases h
  obtain ⟨-, lastE, hlast, hlab, hmeta, hX⟩ := p300Bands_ok_parts hb
  have hw := p300AssembleX_windows (by simp) hlast hX
  have hrank := p300AssembleX_rank hX
  constructor
  · intro h1
    obtain ⟨a, ha⟩ := hrank.1 h1
    refine ⟨a, ha, ?_⟩
    rw [ha] at hw
    rw [hlab]
    exact hw
  · intro hN
    obtain ⟨a, ha, hin⟩ := hrank.2 (by omega)
    refine ⟨a, ha, ?_, ?_⟩
    · rw [ha] at hw
      rw [hlab]
      exact hw
    · intro w hwm c hc smp hsmp
      rw [hin w hwm c hc smp hsmp]
      simp

/-- Expected `process_raw` result for the two-band recipe on `rawGood`. -/
def resW4 : RunResult :=
  { X := .arr4 [[[[5, 5]]], [[[6, 6]]]]
    labels := ["Target", "NonTarget"]
    metaRows := 2
    aux := .p300Aux [none, none]
      [⟨10, 0, 1⟩, ⟨20, 0, 0⟩]
      { eid := [("Target", .single 1), ("NonTarget", .single 0)]
        tmin := 0
        tmax := 1
        reject_tmin := none
        reject_tmax := none
        baseline := none
        picks := ["Cz"]
        rejectByAnnot := false } }

/-- C4 witness: the two-band recipe on `rawGood` returns a rank-4 array
with trailing band axis of length 2. -/
theorem c4_feature_array_rank_witness :
    procResult (p300ProcessRaw cfg2 dsP rawGood false false) = some resW4 ∧
    ((cfg2.filters.length = 1 → ∃ a, resW4.X = .arr3 a ∧ a.length = resW4.labels.length) ∧
     (1 < cfg2.filters.length → ∃ a, resW4.X = .arr4 a ∧ a.length = resW4.labels.length ∧
        ∀ w ∈ a, ∀ c ∈ w, ∀ smp ∈ c, smp.length = cfg2.filters.length)) :=
  ⟨by decide, c4_feature_array_rank cfg2 dsP rawGood false resW4 (by decide)⟩

/-- C5 counterexample: a recording with no stim channel whose annotation
decoding raises makes `BaseP300.process_raw` raise (p300.py line 147 has
no try/except), instead of returning the skip sentinel the claim
asserts. -/
theorem c5_decode_failure_raises :
    errOf (p300ProcessRaw cfgP dsP rawC5 false false) =
      some (.valueError "annotations decode failed") := by
  decide

/-- C5 (amended): `BaseP300.process_raw` returns the skip sentinel when
events were extracted but none matches the vocabulary;
`BaseParadigm.process_raw` additionally returns it when annotation
decoding raises; and `get_data` skips a sentinel run, leaving every
accumulator unchanged and continuing the batch.  In `BaseP300`'s
override, an annotation-decoding failure propagates as a raised
ValueError instead. -/
theorem c5_no_usable_events_sentinel :
    (∀ (p : Config) (d : Dataset) (raw : Raw) (re rr : Bool) (raw1 : Raw)
      (evs : List Event) (picks : List String) (eid : List (String × EvCode)),
      eogStage p raw = .ok raw1 → p300FindEvents raw1 = .ok evs →
      picksStage p raw1 = .ok picks → used_events p d = .ok eid →
      p300EventStage eid evs = .ok none →
      p300ProcessRaw p d raw re rr = .ok (raw1, none)) ∧
    (∀ (p : Config) (d : Dataset) (raw : Raw) (re rr : Bool)
      (eid : List (String × EvCode)),
      used_events p d = .ok eid → baseFindEvents raw = none →
      baseProcessRaw p d raw re rr = .ok none) ∧
    (∀ (p : Config) (d : Dataset) (re rr : Bool) (subj sess rn : String)
      (st : Acc) (raw raw1 : Raw),
      p300ProcessRaw p d raw re rr = .ok (raw1, none) →
      runStep p d re rr subj sess st (rn, raw) =
        ({ st with procCalls := st.procCalls + 1 }, none)) := by
  refine ⟨?_, ?_, ?_⟩
  · intro p d raw re rr raw1 evs picks eid h1 h2 h3 h4 h5
    simp only [p300ProcessRaw, h1, h2, h3, h4, h5]
  · intro p d raw re rr eid h1 h2
    simp only [baseProcessRaw, h1, h2]
  · intro p d re rr subj sess rn st raw raw1 h1
    simp only [runStep, h1]

/-- C5 witness: the sentinel legs and the aggregator skip applied at
concrete recordings (one with only out-of-vocabulary events, one with a
failing annotation decode on the base path). -/
theorem c5_no_usable_events_sentinel_witness :
    p300ProcessRaw cfgP dsP rawNoMatch false false = .ok (rawNoMatch, none) ∧
    baseProcessRaw cfgP dsP rawC5 false false = .ok none ∧
    runStep cfgP dsP false false "1" "s0" acc0 ("r0", rawNoMatch) =
      ({ acc0 with procCalls := acc0.procCalls + 1 }, none) := by
  have h1 := c5_no_usable_events_sentinel.1 cfgP dsP rawNoMatch false false rawNoMatch
    [⟨10, 0, 7⟩] ["Cz"] [("Target", .single 1), ("NonTarget", .single 0)]
    rfl (by decide) (by decide) (by decide) (by decide)
  refine ⟨h1, ?_, ?_⟩
  · exact c5_no_usable_events_sentinel.2.1 cfgP dsP rawC5 false false
      [("Target", .single 1), ("NonTarget", .single 0)] (by decide) (by decide)
  · exact c5_no_usable_events_sentinel.2.2 cfgP dsP false false "1" "s0" "r0" acc0
      rawNoMatch rawNoMatch h1

/-- C6 (amended): construction succeeds exactly when `tmin < tmax` (when
`tmax` is given), `reject_tmin > tmin` and `reject_tmax > tmin` (when
given), and `reject_tmin < reject_tmax` (when both are given); and the
per-recording check run during processing accepts `reject_tmax` exactly
when it is *strictly below* the dataset's task-interval upper bound —
equality is rejected too (p300.py line 181 uses `>=`), slightly stronger
than the claim's "must not exceed". -/
theorem c6_validation :
    (∀ (filters : List (ℚ × ℚ)) (events : Option (List String)) (tmin : ℚ)
      (tmax rtmin rtmax : Option ℚ) (baseline : Option (ℚ × ℚ))
      (channels : Option (List String)) (resample ruv : Option ℚ) (eog : EogOpt),
      (∃ c, baseP300Init filters events tmin tmax rtmin rtmax baseline channels
          resample ruv eog = .ok c) ↔
        ((∀ t, tmax = some t → tmin < t) ∧ (∀ r, rtmin = some r → tmin < r) ∧
         (∀ r, rtmax = some r → tmin < r) ∧
         (∀ a b, rtmin = some a → rtmax = some b → a < b))) ∧
    (∀ (p : Config) (d : Dataset) (r : ℚ), p.reject_tmax = some r →
      (rejectTmaxCheck p d = .ok () ↔ r < d.interval.2)) ∧
    (∀ (p : Config) (d : Dataset) (raw : Raw) (re rr : Bool) (picks : List String)
      (epk : EventPickOut) (e : PyError),
      rejectTmaxCheck p d = .error e → p300Bands p d raw re rr picks epk = .error e) := by
  refine ⟨?_, ?_, ?_⟩
  · intro filters events tmin tmax rtmin rtmax baseline channels resample ruv eog
    constructor
    · rintro ⟨c, hc⟩
      unfold baseP300Init at hc
      split at hc
      · cases hc
      · next h1 =>
        split at hc
        · cases hc
        · next h2 =>
          split at hc
          · cases hc
          · next h3 =>
            split at hc
            · cases hc
            · next h4 =>
              refine ⟨fun t ht => ?_, fun r hr => ?_, fun r hr => ?_,
                fun a b ha hb => ?_⟩
              · rw [ht] at h1; simpa [tmaxBad] using h1
              · rw [hr] at h2; simpa [rejectTminBad] using h2
              · rw [hr] at h3; simpa [rejectTmaxBad] using h3
              · rw [ha, hb] at h4; simpa [rejectPairBad] using h4
    · rintro ⟨hc1, hc2, hc3, hc4⟩
      have g1 : tmaxBad tmin tmax = false := by
        cases tmax with
        | none => rfl
        | some t => simpa [tmaxBad] using hc1 t rfl
      have g2 : rejectTminBad tmin rtmin = false := by
        cases rtmin with
        | none => rfl
        | some r => simpa [rejectTminBad] using hc2 r rfl
      have g3 : rejectTmaxBad tmin rtmax = false := by
        cases rtmax with
        | none => rfl
        | some r => simpa [rejectTmaxBad] using hc3 r rfl
      have g4 : rejectPairBad rtmin rtmax = false := by
        cases rtmin with
        | none => rfl
        | some a =>
          cases rtmax with
          | none => rfl
          | some b => simpa [rejectPairBad] using hc4 a b rfl rfl
      refine ⟨⟨filters, events, tmin, tmax, rtmin, rtmax, baseline, channels,
        resample, ruv, eog⟩, ?_⟩
      unfold baseP300Init
      rw [g1, g2, g3, g4]
      simp only [Bool.false_eq_true, if_false]
  · intro p d r hp
    rw [rejectTmaxCheck_some hp]
    constructor
    · intro h
      by_contra hlt
      rw [if_pos (not_lt.mp hlt)] at h
      cases h
    · intro h
      rw [if_neg (not_le.mpr h)]
  · intro p d raw re rr picks epk e h
    simp only [p300Bands, h]

/-- C6 counterexample: `reject_tmax` equal to the task-interval upper
bound passes construction but is rejected during processing, although the
claim's "must not exceed" wording permits equality. -/
theorem c6_reject_tmax_at_bound_rejected :
    baseP300Init [(1, 24)] (some ["Target", "NonTarget"]) 0 none none (some 1) none none
        none none .off = .ok cfgC6 ∧
    dsP.interval.2 = 1 ∧
    errOf (p300ProcessRaw cfgC6 dsP rawGood false false) =
      some (.valueError "reject_tmax needs to be shorter than tmax") := by
  decide

/-- C6 witness: a fully-valid construction, the strict-bound iff at the
boundary recipe, and the enforcement inside the band stage. -/
theorem c6_validation_witness :
    (∃ c, baseP300Init [(1, 24)] (some ["Target", "NonTarget"]) 0 (some 1) (some (1/2))
        (some (3/4)) none none none none .off = .ok c) ∧
    (rejectTmaxCheck cfgC6 dsP = .ok () ↔ (1 : ℚ) < 1) ∧
    p300Bands cfgC6 dsP rawGood false false ["Cz"]
        ⟨[⟨10, 0, 1⟩, ⟨20, 0, 0⟩], [("Target", .single 1), ("NonTarget", .single 0)]⟩ =
      .error (.valueError "reject_tmax needs to be shorter than tmax") := by
  refine ⟨?_, ?_, ?_⟩
  · exact (c6_validation.1 [(1, 24)] (some ["Target", "NonTarget"]) 0 (some 1)
      (some (1/2)) (some (3/4)) none none none none .off).mpr
      ⟨fun t ht => by cases ht; norm_num, fun r hr => by cases hr; norm_num,
       fun r hr => by cases hr; norm_num, fun a b ha hb => by cases ha; cases hb; norm_num⟩
  · exact c6_validation.2.1 cfgC6 dsP 1 rfl
  · exact c6_validation.2.2 cfgC6 dsP rawGood false false ["Cz"]
      ⟨[⟨10, 0, 1⟩, ⟨20, 0, 0⟩], [("Target", .single 1), ("NonTarget", .single 0)]⟩
      (.valueError "reject_tmax needs to be shorter than tmax") (by decide)

/-- C7: `is_valid` returns false when the dataset's paradigm tag differs
from "p300", and when some whitelisted event label is missing from the
dataset's vocabulary; and a non-cache-hit `get_data` on an invalid
pairing raises an AssertionError naming `dataset.code` before fetching or
processing anything (the trace records no fetch and zero `process_raw`
calls). -/
theorem c7_invalid_dataset_fail_fast :
    (∀ (p : Config) (d : Dataset), d.paradigm ≠ "p300" → is_valid p d = false) ∧
    (∀ (p : Config) (d : Dataset) (evs : List String) (e : String),
      p.events = some evs → e ∈ evs → e ∉ d.event_id.map Prod.fst →
      is_valid p d = false) ∧
    (∀ (p : Config) (d : Dataset) (data : DData) (cacheRead : Option CacheTriple)
      (re rr : Bool), is_valid p d = false →
      getData p d data false cacheRead re rr =
        (.error (.assertionError ("Dataset " ++ d.code ++ " is not valid for paradigm")),
         ⟨true, false, false, 0⟩)) ∧
    (∀ (p : Config) (d : Dataset) (data : DData) (re rr : Bool),
      is_valid p d = false →
      getData p d data true none re rr =
        (.error (.assertionError ("Dataset " ++ d.code ++ " is not valid for paradigm")),
         ⟨true, false, false, 0⟩)) := by
  have hmain : ∀ (p : Config) (d : Dataset) (data : DData) (re rr : Bool),
      is_valid p d = false →
      getDataMain p d data re rr =
        (.error (.assertionError ("Dataset " ++ d.code ++ " is not valid for paradigm")),
         ⟨true, false, false, 0⟩) := by
    intro p d data re rr h
    unfold getDataMain
    rw [if_neg (by simp [h])]
  refine ⟨?_, ?_, ?_, ?_⟩
  · intro p d hp
    simp only [is_valid, if_neg hp]
    split
    · split
      · split <;> rfl
      · rfl
    · rfl
  · intro p d evs e hev he hnot
    have ht : eventsTruthy (some evs) = true := by
      cases evs with
      | nil => cases he
      | cons a as => rfl
    have hall : evs.all (fun x => (d.event_id.map Prod.fst).contains x) = false := by
      cases hall : evs.all (fun x => (d.event_id.map Prod.fst).contains x) with
      | true =>
        exfalso
        have := List.all_eq_true.mp hall e he
        exact hnot (by simpa using this)
      | false => rfl
    simp only [is_valid, hev]
    rw [if_pos ht, hall]
    simp only [Bool.false_eq_true, if_false]
  · intro p d data cacheRead re rr h
    rw [getData_false_eq]
    exact hmain p d data re rr h
  · intro p d data re rr h
    show getDataMain p d data re rr = _
    exact hmain p d data re rr h

/-- C7 witness: a dataset tagged "imagery" is rejected, and `get_data`
fails fast on it without fetching or processing. -/
theorem c7_invalid_dataset_fail_fast_witness :
    is_valid cfgP dsImagery = false ∧
    getData cfgP dsImagery dataC9 false none false false =
      (.error (.assertionError "Dataset FakeDS is not valid for paradigm"),
       ⟨true, false, false, 0⟩) := by
  have hval := c7_invalid_dataset_fail_fast.1 cfgP dsImagery (by decide)
  exact ⟨hval,
    c7_invalid_dataset_fail_fast.2.2.1 cfgP dsImagery dataC9 none false false hval⟩

/-- C8 counterexample: with EOG-based rejection enabled,
`BaseP300.process_raw` merges the synthesized blink annotations into the
*input* recording's annotation set in place (p300.py line 141), so the
recording's annotation set differs after the call. -/
theorem c8_eog_mutates_input_annotations :
    rawC8.annots = [] ∧
    resRawAnnots (p300ProcessRaw cfgC8 dsP rawC8 false false) =
      some [⟨3/4, 7/10, "bad blink"⟩] := by
  decide

/-- C8 (amended): the recording's signal and channel set are unchanged by
every successful `BaseP300.process_raw` call, and the annotation set is
unchanged whenever EOG-based rejection is off (the whole recording is
untouched then); when EOG-based rejection is enabled, the only change is
appending the synthesized blink annotations.  Filtering always acts on
`raw.copy()` band copies. -/
theorem c8_input_recording_frame :
    ∀ (p : Config) (d : Dataset) (raw : Raw) (re rr : Bool) (raw1 : Raw),
      resultRaw (p300ProcessRaw p d raw re rr) = some raw1 →
      raw1.signal = raw.signal ∧ raw1.ch_names = raw.ch_names ∧
      (p.reject_from_eog = .off → raw1 = raw) ∧
      (raw1.annots = raw.annots ∨ raw1.annots = raw.annots ++ blinkAnnots raw) := by
  intro p d raw re rr raw1 h
  have heog : eogStage p raw = .ok raw1 := by
    unfold resultRaw at h
    cases hx : p300ProcessRaw p d raw re rr with
    | error e => rw [hx] at h; simp [Except.toOption] at h
    | ok pr =>
      rw [hx] at h
      simp only [Except.toOption, Option.map_some'] at h
      have := p300ProcessRaw_ok_raw
        (show p300ProcessRaw p d raw re rr = .ok (pr.1, pr.2) by rw [hx])
      rw [Option.some.inj h] at this
      exact this
  cases hcfg : p.reject_from_eog with
  | off =>
    simp only [eogStage, hcfg] at heog
    cases heog
    exact ⟨rfl, rfl, fun _ => rfl, Or.inl rfl⟩
  | useDefault =>
    simp only [eogStage, hcfg] at heog
    cases heog
    refine ⟨rfl, rfl, ?_, Or.inr rfl⟩
    intro hoff
    cases hoff
  | kwargs =>
    simp only [eogStage, hcfg] at heog
    cases heog
    refine ⟨rfl, rfl, ?_, Or.inr rfl⟩
    intro hoff
    cases hoff
  | chName s =>
    simp only [eogStage, hcfg] at heog
    split at heog
    · cases heog
      refine ⟨rfl, rfl, ?_, Or.inr rfl⟩
      intro hoff
      cases hoff
    · cases heog

/-- C8 witness: the frame theorem applied at the default (EOG-off)
recipe, where the recording passes through untouched. -/
theorem c8_input_recording_frame_witness :
    resultRaw (p300ProcessRaw cfgP dsP rawGood false false) = some rawGood ∧
    (rawGood.annots = rawGood.annots ∨
      rawGood.annots = rawGood.annots ++ blinkAnnots rawGood) :=
  ⟨rfl, (c8_input_recording_frame cfgP dsP rawGood false false rawGood rfl).2.2.2⟩

/-- C9: in the combined metadata of a successful non-cached `get_data`
call, every row stamped with a subject traversed earlier precedes every
row stamped with a subject traversed later (dict keys are unique, hence
the `Nodup` hypothesis on the traversal order). -/
theorem c9_subject_rows_ordered
    (p : Config) (d : Dataset) (data : DData) (cacheRead : Option CacheTriple)
    (re rr : Bool) (out : GOut) (tr : Trace) (s1 s2 : String)
    (hok : getData p d data false cacheRead re rr = (.ok out, tr))
    (hnd : (data.map Prod.fst).Nodup)
    (hsub : [s1, s2].Sublist (data.map Prod.fst)) :
    ∀ i j r1 r2, out.meta.get? i = some r1 → out.meta.get? j = some r2 →
      r1.subject = s1 → r2.subject = s2 → i < j := by
  rw [getData_false_eq] at hok
  obtain ⟨hv, st, hloop, hfin, hruns⟩ := getDataMain_ok hok
  have hmeta : out.meta = st.meta.flatten :=
    finalize_meta (o := (out.X, out.labels, out.meta)) hfin
  obtain ⟨t1, t2, ht, h1, h2⟩ := subjLoop_split hloop hnd hsub
  intro i j r1 r2 hi hj hs1 hs2
  rw [hmeta, ht] at hi hj
  simp only [acc0, List.flatten_nil, List.nil_append] at hi hj
  have hlt : i < t1.length := by
    rcases get?_append_cases hi with ⟨hl, _⟩ | ⟨_, hmem⟩
    · exact hl
    · exact absurd hs1 (h2 _ hmem)
  have hge : t1.length ≤ j := by
    rcases get?_append_cases hj with ⟨_, hmem⟩ | ⟨hl, _⟩
    · exact absurd hs2 (h1 _ hmem)
    · exact hl
  exact Nat.lt_of_lt_of_le hlt hge

/-- Expected combined `get_data` output for the C9 witness batch. -/
def goutW9 : GOut :=
  { X := .arr3 [[[5]], [[6]], [[5]], [[6]]]
    labels := ["Target", "NonTarget", "Target", "NonTarget"]
    meta := [⟨"1", "s0", "r0"⟩, ⟨"1", "s0", "r0"⟩, ⟨"2", "s0", "r0"⟩, ⟨"2", "s0", "r0"⟩]
    runs := some [] }

/-- C9 witness: the ordering theorem applied to the concrete two-subject
batch. -/
theorem c9_subject_rows_ordered_witness :
    getData cfgP dsP dataC9 false none false false = (.ok goutW9, ⟨true, true, true, 2⟩) ∧
    (dataC9.map Prod.fst).Nodup ∧
    [("1" : String), "2"].Sublist (dataC9.map Prod.fst) ∧
    (∀ i j r1 r2, goutW9.meta.get? i = some r1 → goutW9.meta.get? j = some r2 →
      r1.subject = "1" → r2.subject = "2" → i < j) := by
  refine ⟨by decide, by decide, List.Sublist.refl _, ?_⟩
  exact c9_subject_rows_ordered cfgP dsP dataC9 none false false goutW9
    ⟨true, true, true, 2⟩ "1" "2" (by decide) (by decide) (List.Sublist.refl _)

/-- C10: with `cache=True` and a successful cache read, `get_data`
returns exactly the cached triple with `None` as the fourth component,
whatever `return_epochs`/`return_runs` are, and the trace shows that
`is_valid`, `prepare_process`, the data fetch and `process_raw` were all
skipped. -/
theorem c10_cache_hit_bypasses_pipeline (p : Config) (d : Dataset) (data : DData)
    (t : CacheTriple) (re rr : Bool) :
    getData p d data true (some t) re rr =
      (.ok ⟨t.X, t.labels, t.meta, none⟩, ⟨false, false, false, 0⟩) := rfl

end Moabb
